import Mathlib

/-!
Shallow embedding of the bibo text-to-speech front-end (Rust) and proofs
about its voice catalog, installer/downloader, synthesis invoker, CLI
dispatch and markdown cleanup.

Conventions of the embedding:
- The filesystem state relevant to the program is the listing of the
  per-user models directory, modelled as a list of entries (name, kind,
  contained file names).  A path "models_dir/X" exists iff an entry named
  X is present; "models_dir/X/Y" exists iff an entry named X is a
  directory whose files contain Y.
- Network transfers are an oracle from URL to an outcome (success,
  failure leaving a partial file, failure leaving no file).
- External processes (the sherpa-onnx engine) are not run; the commands
  that would be spawned are recorded in a trace.
- Strings are handled with ASCII case folding, matching the ASCII data
  the program uses (Rust to_lowercase is Unicode-aware, but every
  identifier and directory name involved is ASCII, and
  eq_ignore_ascii_case is exactly ASCII folding).
- Rust f32 length-scale literals are represented as rational literals;
  the code performs no float arithmetic on them, it only formats them.
-/

deriving instance DecidableEq for Except

namespace Bibo

/-! ### String helpers (structural, kernel-evaluable) -/

/-- ASCII lowercase of a string (model of Rust to_lowercase /
to_ascii_lowercase on the ASCII data used by the program). -/
def asciiLower (s : String) : String := String.mk (s.data.map Char.toLower)

/-- ASCII case-insensitive equality, the model of Rust
eq_ignore_ascii_case: fold A-Z on both sides and compare. -/
def eqIgnoreAsciiCase (a b : String) : Bool := asciiLower a == asciiLower b

/-- Whitespace characters matched by the regex-lite class backslash-s
(ASCII: space, tab, newline, vertical tab, form feed, carriage return),
which also covers the whitespace trimmed by Rust str::trim on ASCII text. -/
def wsChar (c : Char) : Bool :=
  c = ' ' || c = '\t' || c = '\n' || c = '\x0b' || c = '\x0c' || c = '\r'

/-- Split a character list at every occurrence of a separator character
(model of Rust split(sep) for a one-character separator). -/
def splitOnChar (sep : Char) : List Char → List (List Char)
  | [] => [[]]
  | c :: rest =>
    match splitOnChar sep rest with
    | [] => if c = sep then [[], []] else [[c]]
    | g :: gs => if c = sep then [] :: g :: gs else (c :: g) :: gs

/-- Last element of a split, model of Rust split('/').last() (total: a
split is never empty, the default is unreachable). -/
def lastSeg (s : String) : String :=
  String.mk ((splitOnChar '/' s.data).getLastD [])

/-- Contiguous-sublist (substring) test, the model of Rust
str::contains(&str): pat occurs contiguously inside the second list. -/
def isInfixOfB (pat : List Char) : List Char → Bool
  | [] => pat.isEmpty
  | c :: rest => pat.isPrefixOf (c :: rest) || isInfixOfB pat rest

/-- Drop trailing characters satisfying a predicate (structural helper
for the model of Rust str::trim). -/
def trimTrailing (p : Char → Bool) : List Char → List Char
  | [] => []
  | c :: rest =>
    match trimTrailing p rest with
    | [] => if p c then [] else [c]
    | r => c :: r

/-- Model of Rust str::trim on the character list: drop leading and
trailing whitespace. -/
def trimChars (l : List Char) : List Char :=
  trimTrailing wsChar (l.dropWhile wsChar)

/-! ### src/src/cli.rs -/

/-- Speech speed selection (enum Speed in src/src/cli.rs). -/
inductive Speed
  | slow
  | normal
  | fast
deriving DecidableEq, Repr

/-- Speed::to_length_scale (src/src/cli.rs lines 17-23): slow maps to
1.2, normal to 1.0, fast to 0.8 (lower means faster speech). -/
def Speed.to_length_scale : Speed → ℚ
  | .slow => 1.2
  | .normal => 1.0
  | .fast => 0.8

/-- Parsed command line (struct Cli in src/src/cli.rs); clap parsing
itself is outside the embedding, this is the parsed configuration. -/
structure Cli where
  text : Option String
  voice : String
  speed : Speed
  fast : Bool
  input : Option String
  output : Option String
  quiet : Bool
  list : Bool
  download : Option String
deriving DecidableEq, Repr

/-- Cli::effective_speed (src/src/cli.rs lines 90-96): the fast flag
overrides the explicit speed selection. -/
def Cli.effective_speed (c : Cli) : Speed :=
  if c.fast then .fast else c.speed

/-! ### src/src/error.rs -/

/-- Error type (enum BiboError in src/src/error.rs).  The sherpaNotFound
variant is modelled from the spec: src/src/tts/sherpa.rs returns
BiboError::SherpaNotFound but the enum declaration in src/src/error.rs
does not list it (the spec files it under the engine-resolution
failures); every other constructor is verbatim from src/src/error.rs. -/
inductive BiboError
  | voiceNotFound (v : String)
  | voiceNotInstalled (v : String)
  | fileNotFound (p : String)
  | unsupportedFileType (e : String)
  | emptyFile (p : String)
  | noTextProvided
  | invalidSpeed (s : String)
  | downloadFailed (m : String)
  | synthesisFailed (m : String)
  | playbackFailed (m : String)
  | configError (m : String)
  | other (m : String)
  | sherpaNotFound
deriving DecidableEq, Repr

/-! ### src/src/tts/voice.rs -/

/-- Voice metadata (struct Voice in src/src/tts/voice.rs). -/
structure Voice where
  id : String
  name : String
  lang : String
  gender : Char
  quality : String
  size_mb : Nat
  model_dir : String
  download_url : String
deriving DecidableEq, Repr

/-- The compiled-in voice catalog (VOICE_CATALOG in
src/src/tts/voice.rs lines 58-239), all seventeen entries verbatim. -/
def VOICE_CATALOG : List Voice := [
  { id := "melo", name := "MeloTTS", lang := "zh_en", gender := 'F',
    quality := "high", size_mb := 150, model_dir := "vits-melo-tts-zh_en",
    download_url := "https://github.com/k2-fsa/sherpa-onnx/releases/download/tts-models/vits-melo-tts-zh_en.tar.bz2" },
  { id := "huayan", name := "Huayan", lang := "zh_CN", gender := 'F',
    quality := "medium", size_mb := 60, model_dir := "vits-piper-zh_CN-huayan-medium",
    download_url := "https://github.com/k2-fsa/sherpa-onnx/releases/download/tts-models/vits-piper-zh_CN-huayan-medium.tar.bz2" },
  { id := "aishell3", name := "AIShell3", lang := "zh_CN", gender := 'F',
    quality := "high", size_mb := 100, model_dir := "vits-zh-aishell3",
    download_url := "https://github.com/k2-fsa/sherpa-onnx/releases/download/tts-models/vits-zh-aishell3.tar.bz2" },
  { id := "kss", name := "KSS", lang := "ko_KR", gender := 'F',
    quality := "low", size_mb := 30, model_dir := "vits-mimic3-ko_KO-kss_low",
    download_url := "https://github.com/k2-fsa/sherpa-onnx/releases/download/tts-models/vits-mimic3-ko_KO-kss_low.tar.bz2" },
  { id := "amy", name := "Amy", lang := "en_US", gender := 'F',
    quality := "medium", size_mb := 60, model_dir := "vits-piper-en_US-amy-medium",
    download_url := "https://github.com/k2-fsa/sherpa-onnx/releases/download/tts-models/vits-piper-en_US-amy-medium.tar.bz2" },
  { id := "lessac", name := "Lessac", lang := "en_US", gender := 'F',
    quality := "high", size_mb := 120, model_dir := "vits-piper-en_US-lessac-high",
    download_url := "https://github.com/k2-fsa/sherpa-onnx/releases/download/tts-models/vits-piper-en_US-lessac-high.tar.bz2" },
  { id := "ryan", name := "Ryan", lang := "en_US", gender := 'M',
    quality := "high", size_mb := 120, model_dir := "vits-piper-en_US-ryan-high",
    download_url := "https://github.com/k2-fsa/sherpa-onnx/releases/download/tts-models/vits-piper-en_US-ryan-high.tar.bz2" },
  { id := "joe", name := "Joe", lang := "en_US", gender := 'M',
    quality := "medium", size_mb := 60, model_dir := "vits-piper-en_US-joe-medium",
    download_url := "https://github.com/k2-fsa/sherpa-onnx/releases/download/tts-models/vits-piper-en_US-joe-medium.tar.bz2" },
  { id := "ljspeech", name := "LJSpeech", lang := "en_US", gender := 'F',
    quality := "high", size_mb := 80, model_dir := "vits-ljs",
    download_url := "https://github.com/k2-fsa/sherpa-onnx/releases/download/tts-models/vits-ljs.tar.bz2" },
  { id := "alan", name := "Alan", lang := "en_GB", gender := 'M',
    quality := "medium", size_mb := 45, model_dir := "vits-piper-en_GB-alan-medium",
    download_url := "https://github.com/k2-fsa/sherpa-onnx/releases/download/tts-models/vits-piper-en_GB-alan-medium.tar.bz2" },
  { id := "alba", name := "Alba", lang := "en_GB", gender := 'F',
    quality := "medium", size_mb := 45, model_dir := "vits-piper-en_GB-alba-medium",
    download_url := "https://github.com/k2-fsa/sherpa-onnx/releases/download/tts-models/vits-piper-en_GB-alba-medium.tar.bz2" },
  { id := "thorsten", name := "Thorsten", lang := "de_DE", gender := 'M',
    quality := "high", size_mb := 120, model_dir := "vits-piper-de_DE-thorsten-high",
    download_url := "https://github.com/k2-fsa/sherpa-onnx/releases/download/tts-models/vits-piper-de_DE-thorsten-high.tar.bz2" },
  { id := "siwis", name := "Siwis", lang := "fr_FR", gender := 'F',
    quality := "medium", size_mb := 60, model_dir := "vits-piper-fr_FR-siwis-medium",
    download_url := "https://github.com/k2-fsa/sherpa-onnx/releases/download/tts-models/vits-piper-fr_FR-siwis-medium.tar.bz2" },
  { id := "davefx", name := "DaveFX", lang := "es_ES", gender := 'M',
    quality := "medium", size_mb := 60, model_dir := "vits-piper-es_ES-davefx-medium",
    download_url := "https://github.com/k2-fsa/sherpa-onnx/releases/download/tts-models/vits-piper-es_ES-davefx-medium.tar.bz2" },
  { id := "irina", name := "Irina", lang := "ru_RU", gender := 'F',
    quality := "medium", size_mb := 60, model_dir := "vits-piper-ru_RU-irina-medium",
    download_url := "https://github.com/k2-fsa/sherpa-onnx/releases/download/tts-models/vits-piper-ru_RU-irina-medium.tar.bz2" },
  { id := "ruslan", name := "Ruslan", lang := "ru_RU", gender := 'M',
    quality := "medium", size_mb := 60, model_dir := "vits-piper-ru_RU-ruslan-medium",
    download_url := "https://github.com/k2-fsa/sherpa-onnx/releases/download/tts-models/vits-piper-ru_RU-ruslan-medium.tar.bz2" },
  { id := "vais", name := "VAIS1000", lang := "vi_VN", gender := 'F',
    quality := "low", size_mb := 30, model_dir := "vits-mimic3-vi_VN-vais1000_low",
    download_url := "https://github.com/k2-fsa/sherpa-onnx/releases/download/tts-models/vits-mimic3-vi_VN-vais1000_low.tar.bz2" }
]

/-- One entry of the models directory: its name, whether it is a
directory, and (for directories) the file names it contains.  This is
the filesystem state the program reads and writes. -/
structure MEntry where
  name : String
  isDir : Bool
  files : List String
deriving DecidableEq, Repr

/-- Path existence of models_dir/n (Rust Path::exists on a direct child
of the models directory, any kind of entry). -/
def entryExists (fs : List MEntry) (n : String) : Bool :=
  fs.any (fun e => e.name == n)

/-- Existence of a plain file named n directly in the models directory. -/
def fileEntryExists (fs : List MEntry) (n : String) : Bool :=
  fs.any (fun e => e.name == n && !e.isDir)

/-- Path existence of models_dir/d/f: entry d is a directory containing
file f (Rust Path::exists on a two-component relative path). -/
def existsInDir (fs : List MEntry) (d f : String) : Bool :=
  fs.any (fun e => e.name == d && e.isDir && e.files.contains f)

namespace VoiceCatalog

/-- VoiceCatalog::find (src/src/tts/voice.rs lines 254-256):
case-insensitive exact id match over the catalog. -/
def find (id : String) : Option Voice :=
  VOICE_CATALOG.find? (fun v => eqIgnoreAsciiCase v.id id)

/-- VoiceCatalog::installed (src/src/tts/voice.rs lines 265-288): names
of subdirectories of the models directory that contain model.onnx. -/
def installed (fs : List MEntry) : List String :=
  (fs.filter (fun e => e.isDir && e.files.contains "model.onnx")).map (fun e => e.name)

/-- VoiceCatalog::is_installed (src/src/tts/voice.rs lines 291-303): for
a cataloged id, check models_dir/model_dir/model.onnx; otherwise check
whether some installed directory name contains the id
(both lowercased). -/
def is_installed (fs : List MEntry) (id : String) : Bool :=
  match find id with
  | some voice => existsInDir fs voice.model_dir "model.onnx"
  | none =>
    (installed fs).any (fun v => isInfixOfB (asciiLower id).data (asciiLower v).data)

end VoiceCatalog

/-! ### src/src/tts/engine.rs -/

/-- TTS engine handle (struct TtsEngine in src/src/tts/engine.rs):
resolved model directory, onnx file name and voice id. -/
structure TtsEngine where
  model_dir : String
  onnx_file : String
  voice_id : String
deriving DecidableEq, Repr

namespace TtsEngine

/-- TtsEngine::new (src/src/tts/engine.rs lines 21-46): resolve the id in
the catalog (voice-not-found if unknown), require the voice's model
directory to exist (voice-not-installed otherwise), then require
model_dir/model.onnx to exist (config error otherwise).  The onnx_file
field read from the voice is modelled from the spec: the Voice struct in
src/src/tts/voice.rs has no onnx_file field, so the per-voice file name
("model file name" in the spec's data model) is supplied by the
parameter onnxOf. -/
def new (fs : List MEntry) (onnxOf : Voice → String) (voice_id : String) :
    Except BiboError TtsEngine :=
  match VoiceCatalog.find voice_id with
  | none => .error (.voiceNotFound voice_id)
  | some voice =>
    if !entryExists fs voice.model_dir then
      .error (.voiceNotInstalled voice_id)
    else if !existsInDir fs voice.model_dir "model.onnx" then
      .error (.configError ("Model file missing for voice: " ++ voice_id))
    else
      .ok { model_dir := voice.model_dir, onnx_file := onnxOf voice,
            voice_id := voice_id }

/-- TtsEngine::sample_rate (src/src/tts/engine.rs lines 147-155): 44100
when the lowercased voice id contains "melo", else 22050. -/
def sample_rate (e : TtsEngine) : Nat :=
  if isInfixOfB "melo".data (asciiLower e.voice_id).data then 44100 else 22050

end TtsEngine

/-! ### src/src/download/mod.rs

The download module of src refers to two members the Voice struct in
src/src/tts/voice.rs does not declare: a field hf_path (the spec's
"template path used to build mirror URLs") and a method model_filename
(the spec's derived "model file name", the decisive artifact checked for
the idempotent short-circuit).  Both are modelled from the spec: hf_path
is supplied as a function on voices, and model_filename is the last
path segment of hf_path followed by ".onnx" — exactly the name
download_from_source writes the model transfer to, so that the spec's
step 3 ("short-circuit success if the decisive model artifact already
exists at its conventional path") refers to the downloaded file. -/

/-- DOWNLOAD_SOURCES (src/src/download/mod.rs lines 13-22): primary and
fallback base URLs, in declared priority order. -/
def DOWNLOAD_SOURCES : List (String × String) := [
  ("huggingface", "https://huggingface.co/rhasspy/piper-voices/resolve/v1.0.0"),
  ("hf_mirror", "https://hf-mirror.com/rhasspy/piper-voices/resolve/v1.0.0")
]

/-- Outcome of one HTTP file transfer, the network oracle's answer:
success (file fully written), failure after the destination file was
created (partial file on disk), or failure before the file was created
(request or status error). -/
inductive DlOutcome
  | success
  | failPartial
  | failClean
deriving DecidableEq, Repr

/-- URL of one file of a voice: base/hf_path + ext
(src/src/download/mod.rs line 139). -/
def dlUrl (base hf ext : String) : String := base ++ "/" ++ hf ++ ext

/-- Destination file name of one transfer: last segment of hf_path + ext
(src/src/download/mod.rs line 140). -/
def destName (hf ext : String) : String := lastSeg hf ++ ext

/-- Modelled from the spec: Voice::model_filename, the decisive model
artifact's file name (see the section comment above). -/
def model_filename (hf : String) : String := destName hf ".onnx"

/-- Mutable state threaded through the downloader: the models directory
listing, plus instrumentation recording the URLs attempted (in order),
the ids download_voice was invoked on, the per-attempt outcomes counted
by download_by_spec, and the invalid indices it reported. -/
structure DlState where
  fs : List MEntry
  attempts : List String
  calls : List String
  results : List Bool
  warnings : List Nat
deriving DecidableEq, Repr

/-- Create (or truncate) a plain file named n in the models directory
(tokio File::create in download_file). -/
def addFile (fs : List MEntry) (n : String) : List MEntry :=
  { name := n, isDir := false, files := [] } :: fs.filter (fun e => !(e.name == n && !e.isDir))

/-- Remove the plain file named n if present (tokio remove_file,
best-effort: removing a missing file is a no-op). -/
def removeFile (fs : List MEntry) (n : String) : List MEntry :=
  fs.filter (fun e => !(e.name == n && !e.isDir))

/-- VoiceDownloader::download_file (src/src/download/mod.rs lines
169-227): one streamed HTTP GET to a destination file; on success the
file is fully written, on failure the file may or may not have been
created, as the oracle says.  The URL is recorded in the attempts
trace. -/
def download_file (o : String → DlOutcome) (url dest : String) (st : DlState) :
    DlState × Bool :=
  let st := { st with attempts := st.attempts ++ [url] }
  match o url with
  | .success => ({ st with fs := addFile st.fs dest }, true)
  | .failPartial => ({ st with fs := addFile st.fs dest }, false)
  | .failClean => (st, false)

/-- The loop body of VoiceDownloader::download_from_source
(src/src/download/mod.rs lines 138-163) over the remaining extensions:
download base/hf+ext to its destination; on failure remove the partial
destination file and report failure, otherwise continue. -/
def downloadExts (o : String → DlOutcome) (hf base : String) :
    List String → DlState → DlState × Bool
  | [], st => (st, true)
  | ext :: rest, st =>
    let dest := destName hf ext
    let (st1, ok) := download_file o (dlUrl base hf ext) dest st
    if ok then downloadExts o hf base rest st1
    else ({ st1 with fs := removeFile st1.fs dest }, false)

/-- VoiceDownloader::download_from_source (src/src/download/mod.rs lines
132-166): fetch ".onnx" then ".onnx.json" for the voice from one base
URL. -/
def download_from_source (o : String → DlOutcome) (hf base : String)
    (st : DlState) : DlState × Bool :=
  downloadExts o hf base [".onnx", ".onnx.json"] st

/-- The source loop of VoiceDownloader::download_voice
(src/src/download/mod.rs lines 107-128): try each source in order, stop
at the first success; if all fail, a download-failed error carrying the
voice's display name. -/
def trySources (o : String → DlOutcome) (hf : String) (v : Voice) :
    List (String × String) → DlState → DlState × Except BiboError Bool
  | [], st => (st, .error (.downloadFailed v.name))
  | (_, base) :: rest, st =>
    let (st1, ok) := download_from_source o hf base st
    if ok then (st1, .ok true) else trySources o hf v rest st1

/-- VoiceDownloader::download_voice (src/src/download/mod.rs lines
71-129): resolve the id (voice-not-found if unknown), short-circuit with
success if the model file already exists, else try every download
source in order.  Directory creation for the models dir is modelled as
always succeeding.  The id is recorded in the calls trace. -/
def download_voice (o : String → DlOutcome) (hfOf : Voice → String)
    (voice_id : String) (st : DlState) : DlState × Except BiboError Bool :=
  let st := { st with calls := st.calls ++ [voice_id] }
  match VoiceCatalog.find voice_id with
  | none => (st, .error (.voiceNotFound voice_id))
  | some voice =>
    if entryExists st.fs (model_filename (hfOf voice)) then (st, .ok true)
    else trySources o (hfOf voice) voice DOWNLOAD_SOURCES st

/-- Model of Rust str::trim().parse::<usize>() as used by
download_by_spec: trim, accept an optional leading plus sign followed by
one or more ASCII digits, reject values outside the 64-bit range. -/
def parseUsize (s : String) : Option Nat :=
  let t := trimChars s.data
  let t := match t with
    | '+' :: r => r
    | r => r
  if t ≠ [] ∧ t.all Char.isDigit then
    let n := t.foldl (fun acc c => 10 * acc + (c.toNat - 48)) 0
    if n < 2 ^ 64 then some n else none
  else none

/-- The 1-based indices parsed out of a download spec by the numeric
branch of download_by_spec (src/src/download/mod.rs lines 263-266):
split the lowercased spec on commas, trim and parse each piece, drop
pieces that do not parse. -/
def parsedIndices (spec : String) : List Nat :=
  ((splitOnChar ',' (asciiLower spec).data).map (fun g => String.mk g)).filterMap parseUsize

/-- Placeholder voice for the guarded catalog index access (the guard
1 <= idx <= length makes it unreachable). -/
def dummyVoice : Voice :=
  { id := "", name := "", lang := "", gender := ' ', quality := "",
    size_mb := 0, model_dir := "", download_url := "" }

/-- The numeric-index loop of VoiceDownloader::download_by_spec
(src/src/download/mod.rs lines 268-283): in-range indices trigger one
download_voice on the corresponding catalog entry and its outcome is
counted (and recorded in the results trace); out-of-range indices are
reported (warnings trace) and skipped. -/
def downloadIndicesGo (o : String → DlOutcome) (hfOf : Voice → String) :
    List Nat → DlState → DlState × Nat
  | [], st => (st, 0)
  | idx :: rest, st =>
    if 1 ≤ idx ∧ idx ≤ VOICE_CATALOG.length then
      let voice := VOICE_CATALOG.getD (idx - 1) dummyVoice
      let (st1, r) := download_voice o hfOf voice.id st
      let st2 := { st1 with results := st1.results ++ [r.toBool] }
      let (st3, n) := downloadIndicesGo o hfOf rest st2
      (st3, (if r.toBool then 1 else 0) + n)
    else
      downloadIndicesGo o hfOf rest { st with warnings := st.warnings ++ [idx] }

/-- The "all" loop of download_by_spec (src/src/download/mod.rs lines
240-259): one download_voice per catalog entry, counting successes. -/
def downloadAllGo (o : String → DlOutcome) (hfOf : Voice → String) :
    List Voice → DlState → DlState × Nat
  | [], st => (st, 0)
  | v :: rest, st =>
    let (st1, r) := download_voice o hfOf v.id st
    let st2 := { st1 with results := st1.results ++ [r.toBool] }
    let (st3, n) := downloadAllGo o hfOf rest st2
    (st3, (if r.toBool then 1 else 0) + n)

/-- VoiceDownloader::download_by_spec (src/src/download/mod.rs lines
230-289): lowercase the spec; "list" shows the catalog (count 0), "all"
downloads every voice, a spec containing a comma or made of ASCII digits
is parsed as 1-based catalog indices, anything else is a single voice
id. -/
def download_by_spec (o : String → DlOutcome) (hfOf : Voice → String)
    (spec : String) (st : DlState) : DlState × Except BiboError Nat :=
  let s := asciiLower spec
  if s == "list" then (st, .ok 0)
  else if s == "all" then
    let (st1, n) := downloadAllGo o hfOf VOICE_CATALOG st
    (st1, .ok n)
  else if s.data.any (fun c => c == ',') || s.data.all Char.isDigit then
    let (st1, n) := downloadIndicesGo o hfOf (parsedIndices spec) st
    (st1, .ok n)
  else
    let (st1, r) := download_voice o hfOf s st
    (st1, r.map (fun _ => 1))

/-! ### src/src/main.rs — clean_markdown (lines 20-85)

Each regex-lite replace_all of clean_markdown is embedded as a direct
scanner with the same leftmost, non-overlapping match semantics.  The
patterns are anchored or use greedy character classes whose maximal run
is the only candidate match (shrinking a greedy class run puts a class
character where the required delimiter must be), so the scanners use
maximal takeWhile runs.  None of the header/list-marker patterns enables
multiline mode, so their caret only matches at the very start of the
text.  Scanners that skip past a match are given fuel equal to the text
length (every step consumes at least one character). -/

/-- Split at the first occurrence of three consecutive backticks:
returns the text before it and the text after it. -/
def splitAtTicks : List Char → Option (List Char × List Char)
  | [] => none
  | '\x60' :: '\x60' :: '\x60' :: rest => some ([], rest)
  | c :: rest => (splitAtTicks rest).map (fun p => (c :: p.1, p.2))

/-- Fenced code block removal (pattern: three backticks, lazily anything,
three backticks; replaced by nothing). -/
def removeCodeBlocksF : Nat → List Char → List Char
  | 0, l => l
  | fuel + 1, l =>
    match splitAtTicks l with
    | none => l
    | some (pre, rest) =>
      match splitAtTicks rest with
      | none => l
      | some (_, rest2) => pre ++ removeCodeBlocksF fuel rest2

/-- Inline code removal (pattern: backtick, one or more non-backticks,
backtick; replaced by the inner text). -/
def removeInlineCodeF : Nat → List Char → List Char
  | 0, l => l
  | _ + 1, [] => []
  | fuel + 1, c :: rest =>
    if c = '\x60' then
      let run := rest.takeWhile (fun d => d ≠ '\x60')
      if run ≠ [] ∧ rest.drop run.length ≠ [] then
        run ++ removeInlineCodeF fuel (rest.drop (run.length + 1))
      else c :: removeInlineCodeF fuel rest
    else c :: removeInlineCodeF fuel rest

/-- Image removal (pattern: bang, bracketed possibly-empty alt text,
parenthesized nonempty target; replaced by the alt text). -/
def removeImagesF : Nat → List Char → List Char
  | 0, l => l
  | _ + 1, [] => []
  | fuel + 1, c :: rest =>
    if c = '!' then
      match rest with
      | '[' :: r2 =>
        let alt := r2.takeWhile (fun d => d ≠ ']')
        match r2.drop alt.length with
        | ']' :: '(' :: r3 =>
          let inner := r3.takeWhile (fun d => d ≠ ')')
          if inner ≠ [] ∧ r3.drop inner.length ≠ [] then
            alt ++ removeImagesF fuel (r3.drop (inner.length + 1))
          else c :: removeImagesF fuel rest
        | _ => c :: removeImagesF fuel rest
      | _ => c :: removeImagesF fuel rest
    else c :: removeImagesF fuel rest

/-- Link-to-text conversion (pattern: bracketed nonempty text,
parenthesized nonempty target; replaced by the text). -/
def removeLinksF : Nat → List Char → List Char
  | 0, l => l
  | _ + 1, [] => []
  | fuel + 1, c :: rest =>
    if c = '[' then
      let txt := rest.takeWhile (fun d => d ≠ ']')
      match rest.drop txt.length with
      | ']' :: '(' :: r3 =>
        let inner := r3.takeWhile (fun d => d ≠ ')')
        if txt ≠ [] ∧ inner ≠ [] ∧ r3.drop inner.length ≠ [] then
          txt ++ removeLinksF fuel (r3.drop (inner.length + 1))
        else c :: removeLinksF fuel rest
      | _ => c :: removeLinksF fuel rest
    else c :: removeLinksF fuel rest

/-- Header removal (pattern: caret, one to six hash marks, whitespace;
replaced by nothing).  Multiline mode is off, so the caret matches only
at the start of the whole text and replace_all performs at most one
replacement. -/
def stripHeader (l : List Char) : List Char :=
  let hashes := l.takeWhile (fun c => c = '#')
  if 1 ≤ hashes.length ∧ hashes.length ≤ 6 then
    let rest := l.drop hashes.length
    let ws := rest.takeWhile wsChar
    if ws ≠ [] then rest.drop ws.length else l
  else l

/-- Emphasis removal for a star delimiter (one, two or three stars
around one or more non-star characters; replaced by the inner text). -/
def stripEmphF (stars : List Char) : Nat → List Char → List Char
  | 0, l => l
  | _ + 1, [] => []
  | fuel + 1, c :: rest =>
    if stars.isPrefixOf (c :: rest) then
      let body := (c :: rest).drop stars.length
      let run := body.takeWhile (fun d => d ≠ '*')
      if run ≠ [] ∧ stars.isPrefixOf (body.drop run.length) then
        run ++ stripEmphF stars fuel (body.drop (run.length + stars.length))
      else c :: stripEmphF stars fuel rest
    else c :: stripEmphF stars fuel rest

/-- Bullet list marker removal (pattern: caret, whitespace, one of
dash star plus, whitespace; replaced by nothing; start of text only). -/
def stripBullet (l : List Char) : List Char :=
  let ws := l.takeWhile wsChar
  match l.drop ws.length with
  | c :: r2 =>
    if c = '-' ∨ c = '*' ∨ c = '+' then
      let ws2 := r2.takeWhile wsChar
      if ws2 ≠ [] then r2.drop ws2.length else l
    else l
  | [] => l

/-- Numbered list marker removal (pattern: caret, whitespace, digits,
dot, whitespace; replaced by nothing; start of text only). -/
def stripNumbered (l : List Char) : List Char :=
  let ws := l.takeWhile wsChar
  let rest := l.drop ws.length
  let digits := rest.takeWhile Char.isDigit
  if digits ≠ [] then
    match rest.drop digits.length with
    | '.' :: r2 =>
      let ws2 := r2.takeWhile wsChar
      if ws2 ≠ [] then r2.drop ws2.length else l
    | _ => l
  else l

/-- Replacement text for one maximal newline run: runs of three or more
newlines become exactly two, shorter runs are kept. -/
def emitNl (k : Nat) : List Char := List.replicate (if 3 ≤ k then 2 else k) '\n'

/-- Newline collapsing (pattern: three or more newlines replaced by two),
scanning with a count of pending newlines. -/
def collapseGo : List Char → Nat → List Char
  | [], k => emitNl k
  | c :: rest, k =>
    if c = '\n' then collapseGo rest (k + 1)
    else emitNl k ++ c :: collapseGo rest 0

/-- Whitespace cleanup stage of clean_markdown. -/
def collapseNewlines (l : List Char) : List Char := collapseGo l 0

/-- clean_markdown (src/src/main.rs lines 21-85): the twelve substitution
stages in source order, then trim. -/
def clean_markdown (s : String) : String :=
  let t := s.data
  let t := removeCodeBlocksF t.length t
  let t := removeInlineCodeF t.length t
  let t := removeImagesF t.length t
  let t := removeLinksF t.length t
  let t := stripHeader t
  let t := stripEmphF ['*', '*', '*'] t.length t
  let t := stripEmphF ['*', '*'] t.length t
  let t := stripEmphF ['*'] t.length t
  let t := stripBullet t
  let t := stripNumbered t
  let t := collapseNewlines t
  String.mk (trimChars t)

/-! ### src/src/main.rs — input resolution and dispatch -/

/-- Model of Rust Path::extension on a path string: the part of the last
path component after its final dot; none when there is no dot or the
component is a bare dotfile. -/
def extOf (p : String) : Option String :=
  let name := (splitOnChar '/' p.data).getLastD []
  match splitOnChar '.' name with
  | [] => none
  | [_] => none
  | [[], _] => none
  | parts => some (String.mk (parts.getLastD []))

/-- read_file_content (src/src/main.rs lines 88-133): the file must
exist, have extension md, txt or markdown, markdown content is cleaned,
and a resolved content that trims to nothing is an empty-file error.
The filesystem of input files is a map from path to content. -/
def read_file_content (files : String → Option String) (path : String) :
    Except BiboError String :=
  match files path with
  | none => .error (.fileNotFound path)
  | some content =>
    let ext := asciiLower ((extOf path).getD "")
    if !(ext == "md" || ext == "txt" || ext == "markdown") then
      .error (.unsupportedFileType ext)
    else
      let content := if ext == "md" || ext == "markdown" then clean_markdown content
                     else content
      if trimChars content.data = [] then .error (.emptyFile path)
      else .ok content

/-- One recorded invocation of the external sherpa-onnx binary: the
literal text argument, the length-scale flag value and the output path
(the model/tokens path flags are fixed by the engine handle). -/
structure SpawnCmd where
  text : String
  length_scale : ℚ
  output : String

/-- Observable outcome of one run of main (src/src/main.rs lines
136-234): process exit code, the external synthesis commands spawned, the
sample rate handed to the audio player (if playback was reached) and the
error shown (if any). -/
structure MainResult where
  exitCode : Nat
  spawned : List SpawnCmd
  playRate : Option Nat
  err : Option BiboError

/-- Environment of one run: models directory listing, input file map,
network oracle, the two spec-modelled voice accessors, and the outcomes
of the external engine resolution, synthesis and playback. -/
structure Env where
  fs : List MEntry
  files : String → Option String
  o : String → DlOutcome
  hfOf : Voice → String
  onnxOf : Voice → String
  sherpaOk : Bool
  synthOk : Bool
  synthErr : String
  playOk : Bool
  playErr : String

/-- Temporary WAV path used by TtsEngine::synthesize. -/
def tempWavPath : String := "bibo-temp.wav"

/-- TtsEngine::synthesize_to_file (src/src/tts/engine.rs lines 89-119):
resolve the sherpa binary (error before any spawn when absent), then
spawn it with the text, length scale and output path; a nonzero exit is
a synthesis error carrying the captured standard error. -/
def synthesize_to_file (env : Env) (text : String) (ls : ℚ) (out : String) :
    List SpawnCmd × Except BiboError Unit :=
  if !env.sherpaOk then ([], .error .sherpaNotFound)
  else if env.synthOk then ([⟨text, ls, out⟩], .ok ())
  else ([⟨text, ls, out⟩], .error (.synthesisFailed ("sherpa-onnx error: " ++ env.synthErr)))

/-- Text resolution of main (src/src/main.rs lines 172-185): an input
file wins over the positional text; neither is a no-text error.  The
positional text is used as given, without any emptiness check. -/
def resolve_text (env : Env) (cli : Cli) : Except BiboError String :=
  match cli.input with
  | some f => read_file_content env.files f
  | none =>
    match cli.text with
    | some t => .ok t
    | none => .error .noTextProvided

/-- main (src/src/main.rs lines 136-234): dispatch download spec, then
list mode, then resolve text, build the engine, synthesize to a
temporary file, and either synthesize again to the output file or play
the samples — passing the literal rate 22050 to the audio player
(line 223). -/
def mainFlow (env : Env) (cli : Cli) : MainResult :=
  match cli.download with
  | some spec =>
    let (_, r) := download_by_spec env.o env.hfOf spec ⟨env.fs, [], [], [], []⟩
    { exitCode := if r.toBool then 0 else 1, spawned := [], playRate := none,
      err := match r with | .error e => some e | .ok _ => none }
  | none =>
    if cli.list then ⟨0, [], none, none⟩
    else
      match resolve_text env cli with
      | .error e => ⟨1, [], none, some e⟩
      | .ok text =>
        let ls := cli.effective_speed.to_length_scale
        match TtsEngine.new env.fs env.onnxOf cli.voice with
        | .error e => ⟨1, [], none, some e⟩
        | .ok _engine =>
          let (sp1, r1) := synthesize_to_file env text ls tempWavPath
          match r1 with
          | .error e => ⟨1, sp1, none, some e⟩
          | .ok _ =>
            match cli.output with
            | some outPath =>
              let (sp2, r2) := synthesize_to_file env text ls outPath
              match r2 with
              | .error e => ⟨1, sp1 ++ sp2, none, some e⟩
              | .ok _ => ⟨0, sp1 ++ sp2, none, none⟩
            | none =>
              if env.playOk then ⟨0, sp1, some 22050, none⟩
              else ⟨1, sp1, some 22050, some (.playbackFailed env.playErr)⟩

/-! ### Auxiliary definitions for the statements -/

/-- Triple-newline detector: true iff three consecutive newline
characters occur somewhere in the text (what the whitespace-collapsing
stage must eliminate). -/
def hasTripleNewline : List Char → Bool
  | c1 :: c2 :: c3 :: rest =>
    (c1 == '\n' && c2 == '\n' && c3 == '\n') || hasTripleNewline (c2 :: c3 :: rest)
  | _ => false

/-! ### Concrete fixtures used by witnesses and counterexamples -/

/-- A concrete choice of the spec-modelled hf_path template for each
voice; the concrete theorems below hold for every choice. -/
def hfFix : Voice → String := fun v => "fix/" ++ v.model_dir

/-- A concrete choice of the spec-modelled per-voice onnx file name. -/
def onnxFix : Voice → String := fun _ => "model.onnx"

/-- Empty initial downloader state over an empty models directory. -/
def st0 : DlState := ⟨[], [], [], [], []⟩

/-- Oracle: every transfer succeeds. -/
def oAllOk : String → DlOutcome := fun _ => .success

/-- Oracle: every transfer fails without creating the file. -/
def oAllFail : String → DlOutcome := fun _ => .failClean

/-- Oracle: config (.onnx.json) transfers fail midway, everything else
succeeds. -/
def oJsonFail : String → DlOutcome := fun u =>
  if ".onnx.json".data.isSuffixOf u.data then .failPartial else .success

/-- The melo catalog entry (first in the catalog). -/
def meloVoice : Voice := VOICE_CATALOG.getD 0 dummyVoice

/-- A models directory with exactly the melo voice fully installed in
the catalog's layout. -/
def fsMelo : List MEntry := [⟨"vits-melo-tts-zh_en", true, ["model.onnx"]⟩]

/-- Input-file map with a single whitespace-only text file. -/
def filesFix : String → Option String := fun p =>
  if p == "empty.txt" then some "   " else none

/-- Environment with melo installed, the whitespace text file present
and every external step succeeding. -/
def envFix : Env :=
  { fs := fsMelo, files := filesFix, o := oAllOk, hfOf := hfFix,
    onnxOf := onnxFix, sherpaOk := true, synthOk := true, synthErr := "",
    playOk := true, playErr := "" }

/-- A plain synthesize-and-play invocation: optional positional text,
optional input file, voice melo, no flags. -/
def cliPlain (t : Option String) (inp : Option String) : Cli :=
  { text := t, voice := "melo", speed := .normal, fast := false,
    input := inp, output := none, quiet := false, list := false,
    download := none }

/-! ### Claim C5 -/

/-- Claim C5: Speed::to_length_scale maps Slow to exactly 1.2, Normal to
exactly 1.0 and Fast to exactly 0.8 — a strictly decreasing mapping from
Slow to Fast — and for every Cli whose fast flag is set,
effective_speed() returns Fast regardless of the explicit speed
selection. -/
theorem c5_speed_mapping :
    Speed.to_length_scale .slow = 1.2 ∧
    Speed.to_length_scale .normal = 1.0 ∧
    Speed.to_length_scale .fast = 0.8 ∧
    Speed.to_length_scale .fast < Speed.to_length_scale .normal ∧
    Speed.to_length_scale .normal < Speed.to_length_scale .slow ∧
    ∀ c : Cli, c.fast = true → c.effective_speed = .fast := by
  refine ⟨rfl, rfl, rfl, ?_, ?_, ?_⟩
  · show (0.8 : ℚ) < 1.0
    norm_num
  · show (1.0 : ℚ) < 1.2
    norm_num
  · intro c h
    simp [Cli.effective_speed, h]

/-- Witness for C5 at a concrete Cli with the fast flag set beside an
explicit slow selection. -/
theorem c5_witness :
    (cliPlain none none) = (cliPlain none none) ∧
    ({ cliPlain none none with speed := .slow, fast := true } : Cli).effective_speed = .fast :=
  ⟨rfl, c5_speed_mapping.2.2.2.2.2 { cliPlain none none with speed := .slow, fast := true } rfl⟩

/-! ### Claim C8 -/

/-- Claim C8 is violated by the code: TtsEngine::sample_rate does give
44100 for the melo voice, but main (src/src/main.rs line 223) never
calls it and passes the literal 22050 to the audio player, so melo
samples are played at 22050, not 44100. -/
theorem c8_playback_rate_hardcoded :
    TtsEngine.new fsMelo onnxFix "melo" =
      .ok ⟨"vits-melo-tts-zh_en", "model.onnx", "melo"⟩ ∧
    TtsEngine.sample_rate ⟨"vits-melo-tts-zh_en", "model.onnx", "melo"⟩ = 44100 ∧
    (mainFlow envFix (cliPlain (some "hi") none)).playRate = some 22050 ∧
    (mainFlow envFix (cliPlain (some "hi") none)).exitCode = 0 := by
  refine ⟨by decide, by decide, rfl, rfl⟩

/-! ### Claim C10 -/

/-- Claim C10: for an id absent from the catalog, is_installed does not
simply return false: it returns true exactly when some installed
directory's lowercased name contains the lowercased id as a substring;
in particular, with at least one voice installed it returns true for the
empty id. -/
theorem c10_uncataloged_is_installed_substring :
    ∀ (fs : List MEntry) (id : String), VoiceCatalog.find id = none →
      (VoiceCatalog.is_installed fs id =
        (VoiceCatalog.installed fs).any
          (fun v => isInfixOfB (asciiLower id).data (asciiLower v).data)) ∧
      (VoiceCatalog.installed fs ≠ [] → VoiceCatalog.is_installed fs "" = true) := by
  intro fs id h
  constructor
  · simp [VoiceCatalog.is_installed, h]
  · intro hne
    have h0 : VoiceCatalog.find "" = none := by decide
    have hnil : ∀ l : List Char, isInfixOfB [] l = true := by
      intro l
      cases l <;> simp [isInfixOfB, List.isPrefixOf]
    obtain ⟨x, hx⟩ := List.exists_mem_of_ne_nil _ hne
    simp only [VoiceCatalog.is_installed, h0, List.any_eq_true]
    exact ⟨x, hx, by simpa [asciiLower] using hnil (asciiLower x).data⟩

/-- Witness for C10 at a catalog-free id against a models directory with
one installed voice. -/
theorem c10_witness :
    VoiceCatalog.find "zzz" = none ∧
    ((VoiceCatalog.is_installed fsMelo "zzz" =
        (VoiceCatalog.installed fsMelo).any
          (fun v => isInfixOfB (asciiLower "zzz").data (asciiLower v).data)) ∧
      (VoiceCatalog.installed fsMelo ≠ [] →
        VoiceCatalog.is_installed fsMelo "" = true)) :=
  ⟨by decide, c10_uncataloged_is_installed_substring fsMelo "zzz" (by decide)⟩

/-! ### Claim C1 -/

/-- Claim C1 is violated by the code: when the model transfer succeeds
and the config transfer fails on both sources, download_voice fails and
cleans up only the config file, leaving the model file behind
(src/src/download/mod.rs line 159 removes only the failed transfer's
destination); the decisive-artifact check then sees the model file, so a
second download_voice call short-circuits with success ("already
installed") without attempting any transfer. -/
theorem c1_partial_download_short_circuits :
    (download_voice oJsonFail hfFix "melo" st0).2 =
      .error (.downloadFailed "MeloTTS") ∧
    fileEntryExists (download_voice oJsonFail hfFix "melo" st0).1.fs
      "vits-melo-tts-zh_en.onnx" = true ∧
    fileEntryExists (download_voice oJsonFail hfFix "melo" st0).1.fs
      "vits-melo-tts-zh_en.onnx.json" = false ∧
    entryExists (download_voice oJsonFail hfFix "melo" st0).1.fs
      (model_filename (hfFix meloVoice)) = true ∧
    (download_voice oJsonFail hfFix "melo"
        (download_voice oJsonFail hfFix "melo" st0).1).2 = .ok true ∧
    (download_voice oJsonFail hfFix "melo"
        (download_voice oJsonFail hfFix "melo" st0).1).1.attempts =
      (download_voice oJsonFail hfFix "melo" st0).1.attempts := by
  refine ⟨by decide, by decide, by decide, by decide, by decide, by decide⟩

/-! ### Claim C2 -/

/-- Claim C2 is violated by the code: a fully successful download_voice
writes the two flat files stem.onnx and stem.onnx.json directly into the
models directory (src/src/download/mod.rs lines 138-141), but
VoiceCatalog::is_installed looks for models_dir/model_dir/model.onnx and
VoiceCatalog::installed only scans subdirectories containing model.onnx
(src/src/tts/voice.rs lines 265-303), so the freshly downloaded voice is
reported not installed and is not detected. -/
theorem c2_successful_download_not_detected :
    (download_voice oAllOk hfFix "melo" st0).2 = .ok true ∧
    fileEntryExists (download_voice oAllOk hfFix "melo" st0).1.fs
      "vits-melo-tts-zh_en.onnx" = true ∧
    fileEntryExists (download_voice oAllOk hfFix "melo" st0).1.fs
      "vits-melo-tts-zh_en.onnx.json" = true ∧
    VoiceCatalog.is_installed (download_voice oAllOk hfFix "melo" st0).1.fs
      "melo" = false ∧
    VoiceCatalog.installed (download_voice oAllOk hfFix "melo" st0).1.fs = [] := by
  refine ⟨by decide, by decide, by decide, by decide, by decide⟩

/-! ### Claim C3, counterexample -/

/-- Claim C3, as stated, is false at this input: the melo model
directory exists but contains no model files, and TtsEngine::new fails
with a config error, not with voice-not-installed. -/
theorem c3_config_error_counterexample :
    existsInDir [⟨"vits-melo-tts-zh_en", true, []⟩] "vits-melo-tts-zh_en"
      "model.onnx" = false ∧
    TtsEngine.new [⟨"vits-melo-tts-zh_en", true, []⟩] onnxFix "melo" =
      .error (.configError "Model file missing for voice: melo") ∧
    TtsEngine.new [⟨"vits-melo-tts-zh_en", true, []⟩] onnxFix "melo" ≠
      .error (.voiceNotInstalled "melo") := by
  refine ⟨by decide, by decide, by decide⟩

/-! ### Claim C7, counterexample -/

/-- Claim C7, as stated, is false for the positional text argument: a
whitespace-only positional text is not rejected; main builds the engine,
spawns a synthesis command for the whitespace text and exits zero. -/
theorem c7_whitespace_text_proceeds :
    trimChars "   ".data = [] ∧
    (mainFlow envFix (cliPlain (some "   ") none)).spawned.length = 1 ∧
    ((mainFlow envFix (cliPlain (some "   ") none)).spawned.map
      (fun c => c.text)) = ["   "] ∧
    (mainFlow envFix (cliPlain (some "   ") none)).exitCode = 0 ∧
    (mainFlow envFix (cliPlain (some "   ") none)).err = none := by
  refine ⟨by decide, rfl, by decide, rfl, rfl⟩

/-! ### Claim C9, counterexample -/

/-- Claim C9, as stated, is false: the heading pattern is not in
multiline mode, so a heading marker on the second line survives
clean_markdown. -/
theorem c9_heading_second_line_kept :
    clean_markdown "# A\n# B" = "A\n# B" ∧
    clean_markdown "# A\n# B" ≠ "A\nB" := by
  refine ⟨by decide, by decide⟩

/-! ### Claim C3, amended -/

/-- Claim C3 amended: for a cataloged voice, TtsEngine::new fails before
any process is spawned — with voice-not-installed when the voice's model
directory is absent, and with either voice-not-installed or the config
error when the model file is absent; and a failing engine construction
makes main exit 1 without spawning anything. -/
theorem c3_voice_not_installed_amended :
    (∀ (fs : List MEntry) (onnxOf : Voice → String) (id : String) (v : Voice),
        VoiceCatalog.find id = some v → entryExists fs v.model_dir = false →
        TtsEngine.new fs onnxOf id = .error (.voiceNotInstalled id)) ∧
    (∀ (fs : List MEntry) (onnxOf : Voice → String) (id : String) (v : Voice),
        VoiceCatalog.find id = some v →
        existsInDir fs v.model_dir "model.onnx" = false →
        TtsEngine.new fs onnxOf id = .error (.voiceNotInstalled id) ∨
        TtsEngine.new fs onnxOf id =
          .error (.configError ("Model file missing for voice: " ++ id))) ∧
    (∀ (env : Env) (cli : Cli) (t : String) (e : BiboError),
        cli.download = none → cli.list = false → resolve_text env cli = .ok t →
        TtsEngine.new env.fs env.onnxOf cli.voice = .error e →
        mainFlow env cli = ⟨1, [], none, some e⟩) := by
  refine ⟨?_, ?_, ?_⟩
  · intro fs onnxOf id v h1 h2
    simp [TtsEngine.new, h1, h2]
  · intro fs onnxOf id v h1 h2
    by_cases hd : entryExists fs v.model_dir = true
    · right
      simp [TtsEngine.new, h1, hd, h2]
    · left
      simp only [Bool.not_eq_true] at hd
      simp [TtsEngine.new, h1, hd]
  · intro env cli t e h1 h2 h3 h4
    simp [mainFlow, h1, h2, h3, h4]

/-- Witness for C3 amended: melo is cataloged, the empty models
directory has no melo model directory, and engine construction fails
with voice-not-installed. -/
theorem c3_amended_witness :
    VoiceCatalog.find "melo" = some meloVoice ∧
    TtsEngine.new [] onnxFix "melo" = .error (.voiceNotInstalled "melo") :=
  ⟨by decide,
    c3_voice_not_installed_amended.1 [] onnxFix "melo" meloVoice (by decide) (by decide)⟩

/-! ### Claim C7, amended -/

/-- Claim C7 amended: an input file whose resolved content is empty or
whitespace-only is rejected with the empty-file error (after markdown
cleaning for markdown files), a failing file resolution makes main exit
1 before any synthesis invocation, and a wholly missing text yields the
no-text error; a whitespace-only positional text argument, however, is
not rejected (see the counterexample). -/
theorem c7_empty_input_amended :
    (∀ (files : String → Option String) (path content : String),
        files path = some content →
        asciiLower ((extOf path).getD "") = "txt" →
        trimChars content.data = [] →
        read_file_content files path = .error (.emptyFile path)) ∧
    (∀ (files : String → Option String) (path content : String),
        files path = some content →
        asciiLower ((extOf path).getD "") = "md" →
        trimChars (clean_markdown content).data = [] →
        read_file_content files path = .error (.emptyFile path)) ∧
    (∀ (env : Env) (cli : Cli) (p : String) (e : BiboError),
        cli.download = none → cli.list = false → cli.input = some p →
        read_file_content env.files p = .error e →
        mainFlow env cli = ⟨1, [], none, some e⟩) ∧
    (∀ (env : Env) (cli : Cli),
        cli.download = none → cli.list = false → cli.input = none →
        cli.text = none →
        mainFlow env cli = ⟨1, [], none, some .noTextProvided⟩) := by
  refine ⟨?_, ?_, ?_, ?_⟩
  · intro files path content h1 h2 h3
    simp [read_file_content, h1, h2, h3]
  · intro files path content h1 h2 h3
    simp [read_file_content, h1, h2, h3]
  · intro env cli p e h1 h2 h3 h4
    simp [mainFlow, h1, h2, resolve_text, h3, h4]
  · intro env cli h1 h2 h3 h4
    simp [mainFlow, h1, h2, resolve_text, h3, h4]

/-- Witness for C7 amended: the whitespace-only text file is rejected
with the empty-file error. -/
theorem c7_amended_witness :
    filesFix "empty.txt" = some "   " ∧
    read_file_content filesFix "empty.txt" = .error (.emptyFile "empty.txt") :=
  ⟨by decide,
    c7_empty_input_amended.1 filesFix "empty.txt" "   " (by decide) (by decide) (by decide)⟩

/-! ### Download-state lemmas -/

/-- Removing a file undoes creating it over any prior state. -/
theorem removeFile_addFile (fs : List MEntry) (n : String) :
    removeFile (addFile fs n) n = removeFile fs n := by
  simp only [removeFile, addFile, List.filter_cons]
  simp [List.filter_filter]

/-- Removing the same file twice equals removing it once. -/
theorem removeFile_removeFile (fs : List MEntry) (n : String) :
    removeFile (removeFile fs n) n = removeFile fs n := by
  simp [removeFile, List.filter_filter]

/-- After removeFile, no plain file of that name remains. -/
theorem fileEntryExists_removeFile (fs : List MEntry) (n : String) :
    fileEntryExists (removeFile fs n) n = false := by
  rw [Bool.eq_false_iff]
  intro h
  rw [fileEntryExists, List.any_eq_true] at h
  obtain ⟨e, he, hp⟩ := h
  rw [removeFile, List.mem_filter] at he
  simp [hp] at he

/-- A successful transfer records the URL and writes the file. -/
theorem download_file_ok (o : String → DlOutcome) (u d : String) (st : DlState)
    (h : o u = .success) :
    download_file o u d st =
      ({ st with attempts := st.attempts ++ [u], fs := addFile st.fs d }, true) := by
  simp [download_file, h]

/-- A failing first transfer makes the extension loop stop, record the
URL, and leave the destination with its partial file removed. -/
theorem downloadExts_first_fail (o : String → DlOutcome) (hf base e : String)
    (rest : List String) (st : DlState) (h : o (dlUrl base hf e) ≠ .success) :
    downloadExts o hf base (e :: rest) st =
      ({ st with attempts := st.attempts ++ [dlUrl base hf e],
                 fs := removeFile st.fs (destName hf e) }, false) := by
  cases ho : o (dlUrl base hf e) with
  | success => exact absurd ho h
  | failPartial => simp [downloadExts, download_file, ho, removeFile_addFile]
  | failClean => simp [downloadExts, download_file, ho]

/-! ### Claim C4 -/

/-- Claim C4: for a cataloged, not-yet-installed voice, download_voice
tries the sources strictly in declared order (huggingface, then
hf_mirror); a failed transfer deletes its partially written destination
file and the next source is tried; when every source fails,
download_voice returns DownloadFailed carrying the voice's name.  Stated
as: (1) with an all-failing oracle the result is DownloadFailed with the
voice's name, the attempted URLs are exactly the model URL of each
declared source in order, and no partial model file remains; (2) a
source whose model transfer succeeds but whose config transfer fails
reports failure (so the caller moves to the next source) and leaves no
partial config file. -/
theorem c4_mirror_fallback_order_cleanup :
    (∀ (o : String → DlOutcome) (hfOf : Voice → String) (id : String)
        (v : Voice) (st : DlState),
        VoiceCatalog.find id = some v →
        entryExists st.fs (model_filename (hfOf v)) = false →
        (∀ u, o u ≠ .success) →
        (download_voice o hfOf id st).2 = .error (.downloadFailed v.name) ∧
        (download_voice o hfOf id st).1.attempts =
          st.attempts ++ DOWNLOAD_SOURCES.map (fun p => dlUrl p.2 (hfOf v) ".onnx") ∧
        fileEntryExists (download_voice o hfOf id st).1.fs
          (destName (hfOf v) ".onnx") = false) ∧
    (∀ (o : String → DlOutcome) (hf base : String) (st : DlState),
        o (dlUrl base hf ".onnx") = .success →
        o (dlUrl base hf ".onnx.json") ≠ .success →
        (download_from_source o hf base st).2 = false ∧
        fileEntryExists (download_from_source o hf base st).1.fs
          (destName hf ".onnx.json") = false) := by
  constructor
  · intro o hfOf id v st h1 h2 h3
    have hsrc : ∀ (base : String) (st' : DlState),
        download_from_source o (hfOf v) base st' =
          ({ st' with attempts := st'.attempts ++ [dlUrl base (hfOf v) ".onnx"],
                      fs := removeFile st'.fs (destName (hfOf v) ".onnx") }, false) :=
      fun base st' =>
        downloadExts_first_fail o (hfOf v) base ".onnx" [".onnx.json"] st' (h3 _)
    refine ⟨?_, ?_, ?_⟩ <;>
      simp [download_voice, h1, h2, DOWNLOAD_SOURCES, trySources, hsrc,
        removeFile_removeFile, fileEntryExists_removeFile]
  · intro o hf base st h1 h2
    cases ho : o (dlUrl base hf ".onnx.json") with
    | success => exact absurd ho h2
    | failPartial =>
      constructor <;>
        simp [download_from_source, downloadExts, download_file, h1, ho,
          removeFile_addFile, fileEntryExists_removeFile]
    | failClean =>
      constructor <;>
        simp [download_from_source, downloadExts, download_file, h1, ho,
          fileEntryExists_removeFile]

/-- Witness for C4 at the melo voice over an empty models directory with
an all-failing oracle. -/
theorem c4_witness :
    VoiceCatalog.find "melo" = some meloVoice ∧
    ((download_voice oAllFail hfFix "melo" st0).2 =
        .error (.downloadFailed meloVoice.name) ∧
      (download_voice oAllFail hfFix "melo" st0).1.attempts =
        st0.attempts ++ DOWNLOAD_SOURCES.map (fun p => dlUrl p.2 (hfFix meloVoice) ".onnx") ∧
      fileEntryExists (download_voice oAllFail hfFix "melo" st0).1.fs
        (destName (hfFix meloVoice) ".onnx") = false) :=
  ⟨by decide,
    c4_mirror_fallback_order_cleanup.1 oAllFail hfFix "melo" meloVoice st0
      (by decide) (by decide) (fun u h => DlOutcome.noConfusion h)⟩

/-! ### Instrumentation-preservation lemmas for the downloader -/

/-- download_file touches only the filesystem and the attempts trace. -/
theorem download_file_pres (o : String → DlOutcome) (u d : String) (st : DlState) :
    (download_file o u d st).1.calls = st.calls ∧
    (download_file o u d st).1.results = st.results ∧
    (download_file o u d st).1.warnings = st.warnings := by
  cases ho : o u <;> simp [download_file, ho]

/-- The extension loop touches only the filesystem and the attempts
trace. -/
theorem downloadExts_pres (o : String → DlOutcome) (hf base : String) :
    ∀ (exts : List String) (st : DlState),
      (downloadExts o hf base exts st).1.calls = st.calls ∧
      (downloadExts o hf base exts st).1.results = st.results ∧
      (downloadExts o hf base exts st).1.warnings = st.warnings := by
  intro exts
  induction exts with
  | nil => intro st; simp [downloadExts]
  | cons e rest ih =>
    intro st
    cases ho : o (dlUrl base hf e) with
    | success =>
      have := ih ({ st with attempts := st.attempts ++ [dlUrl base hf e],
                            fs := addFile st.fs (destName hf e) })
      simpa [downloadExts, download_file, ho] using this
    | failPartial => simp [downloadExts, download_file, ho]
    | failClean => simp [downloadExts, download_file, ho]

/-- The source loop touches only the filesystem and the attempts trace. -/
theorem trySources_pres (o : String → DlOutcome) (hf : String) (v : Voice) :
    ∀ (srcs : List (String × String)) (st : DlState),
      (trySources o hf v srcs st).1.calls = st.calls ∧
      (trySources o hf v srcs st).1.results = st.results ∧
      (trySources o hf v srcs st).1.warnings = st.warnings := by
  intro srcs
  induction srcs with
  | nil => intro st; simp [trySources]
  | cons s rest ih =>
    intro st
    obtain ⟨n, base⟩ := s
    obtain ⟨hc, hr, hw⟩ := downloadExts_pres o hf base [".onnx", ".onnx.json"] st
    by_cases hok : (downloadExts o hf base [".onnx", ".onnx.json"] st).2 = true
    · refine ⟨?_, ?_, ?_⟩ <;>
        simp [trySources, download_from_source, hok, hc, hr, hw]
    · have hok' : (downloadExts o hf base [".onnx", ".onnx.json"] st).2 = false :=
        Bool.eq_false_iff.mpr hok
      obtain ⟨ic, ir, iw⟩ := ih (downloadExts o hf base [".onnx", ".onnx.json"] st).1
      refine ⟨?_, ?_, ?_⟩ <;>
        simp [trySources, download_from_source, hok', ic, ir, iw, hc, hr, hw]

/-- download_voice appends exactly its id to the calls trace and leaves
the results and warnings traces unchanged. -/
theorem download_voice_pres (o : String → DlOutcome) (hfOf : Voice → String)
    (id : String) (st : DlState) :
    (download_voice o hfOf id st).1.calls = st.calls ++ [id] ∧
    (download_voice o hfOf id st).1.results = st.results ∧
    (download_voice o hfOf id st).1.warnings = st.warnings := by
  cases hf : VoiceCatalog.find id with
  | none => simp [download_voice, hf]
  | some v =>
    by_cases hex : entryExists st.fs (model_filename (hfOf v)) = true
    · simp [download_voice, hf, hex]
    · have hex' : entryExists st.fs (model_filename (hfOf v)) = false :=
        Bool.eq_false_iff.mpr hex
      obtain ⟨tc, tr, tw⟩ := trySources_pres o (hfOf v) v DOWNLOAD_SOURCES
        ({ st with calls := st.calls ++ [id] })
      refine ⟨?_, ?_, ?_⟩ <;> simp [download_voice, hf, hex', tc, tr, tw]

/-! ### Claim C6 -/

/-- The numeric-index loop, characterized: it produces one recorded
outcome per in-range index, returns the number of successful attempts,
invokes download_voice exactly once per in-range index on the
corresponding catalog entry (in order), and reports each out-of-range
index. -/
theorem downloadIndicesGo_spec (o : String → DlOutcome) (hfOf : Voice → String) :
    ∀ (idxs : List Nat) (st : DlState),
      ∃ bs : List Bool,
        (downloadIndicesGo o hfOf idxs st).1.results = st.results ++ bs ∧
        bs.length = (idxs.filter
          (fun i => decide (1 ≤ i ∧ i ≤ VOICE_CATALOG.length))).length ∧
        (downloadIndicesGo o hfOf idxs st).2 = bs.count true ∧
        (downloadIndicesGo o hfOf idxs st).1.calls =
          st.calls ++ (idxs.filter
            (fun i => decide (1 ≤ i ∧ i ≤ VOICE_CATALOG.length))).map
            (fun i => (VOICE_CATALOG.getD (i - 1) dummyVoice).id) ∧
        (downloadIndicesGo o hfOf idxs st).1.warnings =
          st.warnings ++ idxs.filter
            (fun i => !decide (1 ≤ i ∧ i ≤ VOICE_CATALOG.length)) := by
  intro idxs
  induction idxs with
  | nil => intro st; exact ⟨[], by simp [downloadIndicesGo]⟩
  | cons i rest ih =>
    intro st
    by_cases hir : 1 ≤ i ∧ i ≤ VOICE_CATALOG.length
    · obtain ⟨hc, hr, hw⟩ :=
        download_voice_pres o hfOf (VOICE_CATALOG.getD (i - 1) dummyVoice).id st
      rcases hdv : download_voice o hfOf (VOICE_CATALOG.getD (i - 1) dummyVoice).id st
        with ⟨st1, r⟩
      rw [hdv] at hc hr hw
      simp only at hc hr hw
      obtain ⟨bs, ih1, ih2, ih3, ih4, ih5⟩ := ih
        (DlState.mk st1.fs st1.attempts st1.calls (st1.results ++ [r.toBool]) st1.warnings)
      refine ⟨r.toBool :: bs, ?_, ?_, ?_, ?_, ?_⟩
      · simp only [downloadIndicesGo, if_pos hir, hdv]
        rw [ih1]
        simp [hr]
      · simp [ih2, List.filter_cons, hir]
      · simp only [downloadIndicesGo, if_pos hir, hdv]
        cases hb : r.toBool
        · rw [hb] at ih3
          simp [ih3, List.count_cons]
        · rw [hb] at ih3
          simp [ih3, List.count_cons, Nat.add_comm]
      · simp only [downloadIndicesGo, if_pos hir, hdv]
        rw [ih4]
        simp [hc, List.filter_cons, hir]
      · simp only [downloadIndicesGo, if_pos hir, hdv]
        rw [ih5]
        simp [hw, List.filter_cons, hir]
    · have hir2 : i = 0 ∨ VOICE_CATALOG.length < i := by omega
      obtain ⟨bs, ih1, ih2, ih3, ih4, ih5⟩ := ih
        ({ st with warnings := st.warnings ++ [i] })
      refine ⟨bs, ?_, ?_, ?_, ?_, ?_⟩ <;>
        simp [downloadIndicesGo, hir, hir2, ih1, ih2, ih3, ih4, ih5, List.filter_cons]

/-- Claim C6: for a download spec that is a comma-separated list of
numbers against the N-voice catalog, each in-range 1-based index
triggers exactly one download_voice attempt on the corresponding catalog
entry, each out-of-range index is reported and skipped without aborting
the batch, and the returned count is exactly the number of attempts
that succeeded. -/
theorem c6_download_by_spec_indices :
    ∀ (o : String → DlOutcome) (hfOf : Voice → String) (spec : String) (st : DlState),
      asciiLower spec ≠ "list" →
      asciiLower spec ≠ "all" →
      ((asciiLower spec).data.any (fun c => c == ',') = true ∨
        (asciiLower spec).data.all Char.isDigit = true) →
      ∃ bs : List Bool,
        (download_by_spec o hfOf spec st).1.results = st.results ++ bs ∧
        bs.length = ((parsedIndices spec).filter
          (fun i => decide (1 ≤ i ∧ i ≤ VOICE_CATALOG.length))).length ∧
        (download_by_spec o hfOf spec st).2 = .ok (bs.count true) ∧
        (download_by_spec o hfOf spec st).1.calls =
          st.calls ++ ((parsedIndices spec).filter
            (fun i => decide (1 ≤ i ∧ i ≤ VOICE_CATALOG.length))).map
            (fun i => (VOICE_CATALOG.getD (i - 1) dummyVoice).id) ∧
        (download_by_spec o hfOf spec st).1.warnings =
          st.warnings ++ (parsedIndices spec).filter
            (fun i => !decide (1 ≤ i ∧ i ≤ VOICE_CATALOG.length)) := by
  intro o hfOf spec st h1 h2 h3
  have hb1 : (asciiLower spec == "list") = false := by
    rw [beq_eq_false_iff_ne]
    exact h1
  have hb2 : (asciiLower spec == "all") = false := by
    rw [beq_eq_false_iff_ne]
    exact h2
  have hcond : ((asciiLower spec).data.any (fun c => c == ',')
      || (asciiLower spec).data.all Char.isDigit) = true := by
    rcases h3 with h | h <;> simp [h]
  obtain ⟨bs, g1, g2, g3, g4, g5⟩ := downloadIndicesGo_spec o hfOf (parsedIndices spec) st
  exact ⟨bs, by simp [download_by_spec, hb1, hb2, hcond, g1, g2, g3, g4, g5]⟩

/-- Witness for C6 at the spec "3,99": index 3 is attempted (voice
aishell3), index 99 is reported invalid, and with an all-succeeding
oracle the count is the one successful attempt. -/
theorem c6_witness :
    asciiLower "3,99" ≠ "list" ∧
    (∃ bs : List Bool,
      (download_by_spec oAllOk hfFix "3,99" st0).1.results = st0.results ++ bs ∧
      bs.length = ((parsedIndices "3,99").filter
        (fun i => decide (1 ≤ i ∧ i ≤ VOICE_CATALOG.length))).length ∧
      (download_by_spec oAllOk hfFix "3,99" st0).2 = .ok (bs.count true) ∧
      (download_by_spec oAllOk hfFix "3,99" st0).1.calls =
        st0.calls ++ ((parsedIndices "3,99").filter
          (fun i => decide (1 ≤ i ∧ i ≤ VOICE_CATALOG.length))).map
          (fun i => (VOICE_CATALOG.getD (i - 1) dummyVoice).id) ∧
      (download_by_spec oAllOk hfFix "3,99" st0).1.warnings =
        st0.warnings ++ (parsedIndices "3,99").filter
          (fun i => !decide (1 ≤ i ∧ i ≤ VOICE_CATALOG.length))) :=
  ⟨by decide,
    c6_download_by_spec_indices oAllOk hfFix "3,99" st0 (by decide) (by decide)
      (Or.inl (by decide))⟩

/-! ### Newline-collapsing lemmas for clean_markdown -/

/-- A triple-free list stays triple-free after dropping its head. -/
theorem hasTripleNewline_tail (c : Char) (l : List Char)
    (h : hasTripleNewline (c :: l) = false) : hasTripleNewline l = false := by
  cases l with
  | nil => rfl
  | cons b1 t1 =>
    cases t1 with
    | nil => rfl
    | cons b2 t2 =>
      rw [hasTripleNewline, Bool.or_eq_false_iff] at h
      exact h.2

/-- Prepending a non-newline character cannot create a newline triple. -/
theorem hasTripleNewline_cons (c : Char) (l : List Char)
    (hc : (c == '\n') = false) :
    hasTripleNewline (c :: l) = hasTripleNewline l := by
  cases l with
  | nil => simp [hasTripleNewline]
  | cons b1 t1 =>
    cases t1 with
    | nil => simp [hasTripleNewline]
    | cons b2 t2 => simp [hasTripleNewline, hc]

/-- One newline followed by a non-newline keeps a triple-free list
triple-free. -/
theorem hasTripleNewline_nl_cons (c : Char) (l : List Char)
    (hc : (c == '\n') = false) (hl : hasTripleNewline l = false) :
    hasTripleNewline ('\n' :: c :: l) = false := by
  cases l with
  | nil => simp [hasTripleNewline]
  | cons b t =>
    rw [hasTripleNewline, Bool.or_eq_false_iff]
    refine ⟨by simp [hc], ?_⟩
    rw [hasTripleNewline_cons _ _ hc]
    exact hl

/-- At most two replicated newlines contain no triple. -/
theorem hasTripleNewline_replicate (m : Nat) (hm : m ≤ 2) :
    hasTripleNewline (List.replicate m '\n') = false := by
  interval_cases m <;> decide

/-- The emitted newline run is a replicate of at most two newlines. -/
theorem emitNl_eq (k : Nat) : ∃ m, m ≤ 2 ∧ emitNl k = List.replicate m '\n' := by
  by_cases h : 3 ≤ k
  · exact ⟨2, by omega, by simp [emitNl, h]⟩
  · exact ⟨k, by omega, by simp [emitNl, h]⟩

/-- An emitted run followed by a non-newline and a triple-free tail is
triple-free. -/
theorem hasTripleNewline_emit_append (k : Nat) (c : Char) (l : List Char)
    (hc : (c == '\n') = false) (hl : hasTripleNewline l = false) :
    hasTripleNewline (emitNl k ++ c :: l) = false := by
  obtain ⟨m, hm, he⟩ := emitNl_eq k
  rw [he]
  interval_cases m
  · simpa [hasTripleNewline_cons c l hc] using hl
  · simpa using hasTripleNewline_nl_cons c l hc hl
  · rw [show List.replicate 2 '\n' ++ c :: l = '\n' :: '\n' :: c :: l by
      simp [List.replicate]]
    rw [hasTripleNewline, Bool.or_eq_false_iff]
    exact ⟨by simp [hc], hasTripleNewline_nl_cons c l hc hl⟩

/-- The collapsing scan never emits three consecutive newlines. -/
theorem collapseGo_no_triple : ∀ (l : List Char) (k : Nat),
    hasTripleNewline (collapseGo l k) = false := by
  intro l
  induction l with
  | nil =>
    intro k
    obtain ⟨m, hm, he⟩ := emitNl_eq k
    simp only [collapseGo, he]
    exact hasTripleNewline_replicate m hm
  | cons c rest ih =>
    intro k
    by_cases hc : c = '\n'
    · simp only [collapseGo, if_pos hc]
      exact ih (k + 1)
    · have hcb : (c == '\n') = false := by simp [hc]
      simp only [collapseGo, if_neg hc]
      exact hasTripleNewline_emit_append k c (collapseGo rest 0) hcb (ih 0)

/-- Dropping trailing characters produces a prefix of the input. -/
theorem trimTrailing_prefixOf (p : Char → Bool) :
    ∀ l : List Char, trimTrailing p l <+: l := by
  intro l
  induction l with
  | nil => simp [trimTrailing]
  | cons c rest ih =>
    cases htr : trimTrailing p rest with
    | nil =>
      by_cases hp : p c = true
      · simp [trimTrailing, htr, hp]
      · simp [trimTrailing, htr, hp]
    | cons a t =>
      rw [htr] at ih
      simp only [trimTrailing, htr]
      exact List.cons_prefix_cons.mpr ⟨rfl, ih⟩

/-- Triple-freeness is inherited by prefixes. -/
theorem hasTripleNewline_prefixOf : ∀ (l' l : List Char), l' <+: l →
    hasTripleNewline l = false → hasTripleNewline l' = false := by
  intro l'
  induction l' with
  | nil => intro l _ _; rfl
  | cons c rest ih =>
    intro l hpre hl
    obtain ⟨t, ht⟩ := hpre
    subst ht
    have hl2 : hasTripleNewline (rest ++ t) = false := hasTripleNewline_tail _ _ hl
    have ihr : hasTripleNewline rest = false := ih (rest ++ t) ⟨t, rfl⟩ hl2
    cases rest with
    | nil => rfl
    | cons b1 t1 =>
      cases t1 with
      | nil => rfl
      | cons b2 t2 =>
        rw [hasTripleNewline, Bool.or_eq_false_iff]
        refine ⟨?_, ihr⟩
        rw [show (c :: b1 :: b2 :: t2) ++ t = c :: b1 :: b2 :: (t2 ++ t) by simp] at hl
        rw [hasTripleNewline, Bool.or_eq_false_iff] at hl
        exact hl.1

/-- Triple-freeness is inherited by right parts of an append. -/
theorem hasTripleNewline_append_right (t l' : List Char)
    (h : hasTripleNewline (t ++ l') = false) : hasTripleNewline l' = false := by
  induction t with
  | nil => simpa using h
  | cons a t2 ih => exact ih (hasTripleNewline_tail _ _ h)

/-- The whitespace-collapsed and trimmed text is triple-free. -/
theorem trimChars_collapse_no_triple (l : List Char) :
    hasTripleNewline (trimChars (collapseNewlines l)) = false := by
  have h1 : hasTripleNewline (collapseNewlines l) = false := collapseGo_no_triple l 0
  have h2 : hasTripleNewline ((collapseNewlines l).dropWhile wsChar) = false := by
    obtain ⟨t, ht⟩ := List.dropWhile_suffix (l := collapseNewlines l) (p := wsChar)
    rw [← ht] at h1
    exact hasTripleNewline_append_right _ _ h1
  exact hasTripleNewline_prefixOf _ _ (trimTrailing_prefixOf wsChar _) h2

/-- clean_markdown output never contains three consecutive newlines. -/
theorem clean_markdown_no_triple (s : String) :
    hasTripleNewline (clean_markdown s).data = false := by
  simp only [clean_markdown]
  exact trimChars_collapse_no_triple _

/-! ### Claim C9, amended -/

/-- Claim C9 amended: clean_markdown strips heading markers and
bullet/numbered list-item markers only at the start of the text (the
patterns are not in multiline mode), removes fenced code blocks
entirely, keeps the inner text of inline code, emphasis, links and image
alt text, and collapses every run of three or more newlines to exactly
two (one blank line) — runs of newline characters, not whitespace-only
lines — so the output never contains three consecutive newlines. -/
theorem c9_markdown_cleaning_amended :
    clean_markdown "# Title\nbody" = "Title\nbody" ∧
    clean_markdown "# A\n# B" = "A\n# B" ∧
    clean_markdown "- x" = "x" ∧
    clean_markdown "1. item" = "item" ∧
    clean_markdown "x\n- y" = "x\n- y" ∧
    clean_markdown "a\n```\ncode\n```\nb" = "a\n\nb" ∧
    clean_markdown "x `y` z" = "x y z" ∧
    clean_markdown "**b** *i* ***e***" = "b i e" ∧
    clean_markdown "[t](u) and ![a](v)" = "t and a" ∧
    clean_markdown "a\n\n\n\n\nb" = "a\n\nb" ∧
    ∀ s : String, hasTripleNewline (clean_markdown s).data = false := by
  exact ⟨by decide, by decide, by decide, by decide, by decide, by decide,
    by decide, by decide, by decide, by decide, clean_markdown_no_triple⟩

end Bibo
